import Mathlib

/-!
# Redishort — Asset Inventory & Publish Scheduling Engine: formal model

A shallow embedding in Lean 4 of the control-plane logic of the Redishort
repository (`src/main.py`, `src/video_assembler.py`, `src/video_segmenter.py`,
`src/video_downloader.py`, `src/youtube_uploader.py`), together with proofs
and refutations of the specified properties.

Conventions of the embedding:
* All datetimes live in one fixed timezone (the configuration pins a single
  IANA timezone for every datetime the core manipulates), so a datetime is
  modelled as an absolute count of microseconds `n : Nat`; its calendar day
  is `n / dayUs` and its time of day is `n % dayUs`.
* `random.choice(xs)` is modelled by an oracle index `k : Nat` selecting
  `xs[k % len(xs)]`; a property of the form "never returns X" must hold for
  every oracle value, and a single oracle value refutes it.
* Python dicts keyed by story id are association lists, file systems are
  lists of `(path, size)` pairs, log files are `String`s.
* Fallible operations return `Except`/`Option` mirroring raised exceptions
  and `None` returns.
-/

namespace Redishort

/-! ## Configuration constants (src/config.py) -/

def PUBLISH_TOLERANCE_MINUTES : Nat := 30
def MIN_SEGMENT_SIZE_BYTES : Nat := 102400
def SEGMENT_DURATION_SECONDS : ℚ := 120
def TRIM_START_SECONDS : ℚ := 30
def TRIM_END_SECONDS : ℚ := 30
def ENABLE_VIDEO_TRIMMING : Bool := true
def ENABLE_QUALITY_VALIDATION : Bool := true
def VALIDATION_FRAME_SAMPLES : Nat := 5
def MIN_BRIGHTNESS : ℚ := 30
def MAX_BRIGHTNESS : ℚ := 220
def MIN_MOTION_SCORE : ℚ := 1

/-! ## Publish scheduler (src/main.py, `get_next_publish_time`)

A schedule slot is a time of day `(hour, minute)`; the configured
`PUBLISHING_SCHEDULE` writes slots as zero-padded `"HH:MM"` strings, on which
Python's string sort coincides with the lexicographic order on
`(hour, minute)`, i.e. with the order of the slot's time of day. -/

/-- One configured publishing slot: a time of day. -/
structure Slot where
  hour : Nat
  minute : Nat
deriving DecidableEq, Repr

/-- Microseconds in one day. -/
def dayUs : Nat := 86400000000

/-- Time of day of a slot, in microseconds (`second=0, microsecond=0`). -/
def Slot.tod (s : Slot) : Nat := (s.hour * 3600 + s.minute * 60) * 1000000

/-- Embedding of `sorted(schedule)`: Python sorts the `"HH:MM"` strings, which orders the
zero-padded slots by time of day. -/
def sortSchedule (schedule : List Slot) : List Slot :=
  List.insertionSort (fun a b => a.tod ≤ b.tod) schedule

/-- Embedding of `now_in_tz.replace(hour=h, minute=m, second=0, microsecond=0)`:
same calendar day as `now`, time of day taken from the slot. -/
def replaceTod (now : Nat) (s : Slot) : Nat :=
  (now / dayUs) * dayUs + s.tod

/-- Embedding of `get_next_publish_time(schedule, timezone)` from src/main.py, as a
function of the current instant `now` (microseconds): scan the sorted
schedule for the first slot strictly after `now` today; if none, take the
first sorted slot tomorrow. The empty schedule (excluded by configuration)
returns `0`. -/
def get_next_publish_time (schedule : List Slot) (now : Nat) : Nat :=
  match (sortSchedule schedule).find? (fun s => now < replaceTod now s) with
  | some s => replaceTod now s
  | none =>
    match sortSchedule schedule with
    | [] => 0
    | s :: _ => replaceTod (now + dayUs) s

/-- The set of instants at which a slot of `schedule` occurs: day `d` at the
slot's time of day (seconds and microseconds zero). -/
def IsSlotOccurrence (schedule : List Slot) (t : Nat) : Prop :=
  ∃ s ∈ schedule, ∃ d : Nat, t = d * dayUs + s.tod

/-! ## Publish-timing decision (src/main.py, lines 188–199)

After production finishes, the loop keeps `publish_time_for_api = target`
when completion is before the target; otherwise compares the overrun with
the tolerance (`time_passed.total_seconds() / 60 <= PUBLISH_TOLERANCE_MINUTES`,
i.e. overrun microseconds ≤ tolerance·60·10⁶) and either publishes now
(`None`) or re-targets the next slot computed from the completion instant. -/

def decide_publish_timing (schedule : List Slot) (target now : Nat)
    (toleranceMinutes : Nat) : Option Nat :=
  if target ≤ now then
    if now - target ≤ toleranceMinutes * 60000000 then
      none
    else
      some (get_next_publish_time schedule now)
  else
    some target

/-! ## Segment allocator (src/video_assembler.py, `SegmentManager`)

State of the manager together with the segments directory: `assigned` is the
`self._assigned` dict (story id → segment path), `pool` the `*.mp4` files on
disk in `SEGMENTS_FOLDER` with their byte sizes.  All three public paths
(`get_segment`, `_select_valid_segment`, `consume_segment`) run under the
single `self._lock`, so each is one atomic state transition here. -/

structure SegState where
  assigned : List (String × String)
  pool : List (String × Nat)
deriving DecidableEq, Repr

/-- Dict lookup `self._assigned[story_id]` (`story_id in self._assigned`). -/
def lookupAssigned (m : List (String × String)) (storyId : String) : Option String :=
  (m.find? (fun e => e.1 = storyId)).map (fun e => e.2)

/-- Embedding of `_select_valid_segment`: list every `*.mp4` in the pool whose size is at
least `MIN_SEGMENT_SIZE_BYTES`, raise `ValueError("No valid segments
available.")` if there is none, else `random.choice` — modelled by the oracle
index `k`.  Note the scan is over the whole directory: files already assigned
to another story are not excluded. -/
def select_valid_segment (pool : List (String × Nat)) (k : Nat) :
    Except String String :=
  let available := pool.filter (fun f => MIN_SEGMENT_SIZE_BYTES ≤ f.2)
  match available with
  | [] => .error "No valid segments available."
  | x :: xs => .ok ((x :: xs).get ⟨k % (x :: xs).length, Nat.mod_lt _ (Nat.succ_pos _)⟩).1

/-- Embedding of `SegmentManager.get_segment(story_id)`: return the existing assignment if
present, otherwise select a segment and record the assignment before the lock
is released. -/
def get_segment (st : SegState) (storyId : String) (k : Nat) :
    Except String String × SegState :=
  match lookupAssigned st.assigned storyId with
  | some p => (.ok p, st)
  | none =>
    match select_valid_segment st.pool k with
    | .error e => (.error e, st)
    | .ok p => (.ok p, { st with assigned := (storyId, p) :: st.assigned })

/-- Embedding of `SegmentManager.consume_segment(story_id)`: if the story has an
assignment, pop it and unlink the segment file (`if path.exists()`); no-op
otherwise. -/
def consume_segment (st : SegState) (storyId : String) : SegState :=
  match lookupAssigned st.assigned storyId with
  | none => st
  | some p =>
    { assigned := st.assigned.filter (fun e => ¬ e.1 = storyId),
      pool := st.pool.filter (fun f => ¬ f.1 = p) }

/-- The segments of `st.pool` that are size-valid and not currently assigned
to any story id (the set the spec says `assign` selects from). -/
def unassignedValid (st : SegState) : List (String × Nat) :=
  st.pool.filter (fun f =>
    MIN_SEGMENT_SIZE_BYTES ≤ f.2 ∧ ∀ e ∈ st.assigned, e.2 ≠ f.1)

/-- Every assigned path points at a size-valid file still in the pool.  Holds
of the initial empty manager and is preserved by `get_segment` and
`consume_segment` (files are deleted only by `consume_segment`, which drops
the assignment in the same step). -/
def SizeValidInv (st : SegState) : Prop :=
  ∀ e ∈ st.assigned, ∃ f ∈ st.pool, f.1 = e.2 ∧ MIN_SEGMENT_SIZE_BYTES ≤ f.2

instance (st : SegState) : Decidable (SizeValidInv st) := by
  unfold SizeValidInv
  infer_instance

/-! ## Publish phase of the control loop (src/main.py, lines 205–215)

`upload_to_youtube` returns a video id string on success and `None` on
failure; the loop consumes the segment and removes the story's working
directory exactly under `if video_id:` (Python truthiness). -/

/-- Python truthiness of the upload result (`None` and `""` are falsy). -/
def pyTruthy : Option String → Bool
  | none => false
  | some s => ¬ s.isEmpty

/-- Control-loop state visible to the publish phase: the allocator state and
the set of per-story working directories under the session folder. -/
structure LoopState where
  seg : SegState
  storyFolders : List String
deriving DecidableEq, Repr

/-- Lines 210–215 of src/main.py: on a truthy `video_id`, call
`segment_manager.consume_segment(story_id)` and `shutil.rmtree(story_folder)`;
otherwise only log critically and leave everything in place. -/
def publish_cleanup (ls : LoopState) (storyId storyFolder : String)
    (uploadResult : Option String) : LoopState :=
  if pyTruthy uploadResult then
    { seg := consume_segment ls.seg storyId,
      storyFolders := ls.storyFolders.filter (fun f => ¬ f = storyFolder) }
  else
    ls

/-! ## YouTube upload request body (src/youtube_uploader.py, lines 69–85) -/

/-- The `status` object of the upload request body. -/
structure UploadStatus where
  privacyStatus : String
  publishAt : Option Nat
deriving DecidableEq, Repr

/-- Embedding of `upload_to_youtube`: the `privacyStatus` is `"private"` when a scheduled
`publish_at` is passed (a datetime is truthy) and `"public"` otherwise;
`status["publishAt"]` is set to the scheduled instant exactly when one is
passed. -/
def build_upload_status (publish_at : Option Nat) : UploadStatus :=
  { privacyStatus := if publish_at.isSome then "private" else "public",
    publishAt := publish_at }

/-! ## Processed-video deduplication log
(src/video_downloader.py lines 106–109, src/video_segmenter.py lines 176–178)

The log is a text file, one external id per line. -/

/-- Split a character list at every `'\n'`. -/
def splitNlAux : List Char → List Char → List (List Char)
  | [], acc => [acc.reverse]
  | c :: rest, acc =>
    if c = '\n' then acc.reverse :: splitNlAux rest []
    else splitNlAux rest (c :: acc)

/-- Python `str.splitlines` on newline-separated text: split on `"\n"`,
dropping the empty fragment a trailing newline leaves behind. -/
def pySplitlines (s : String) : List String :=
  let l := (splitNlAux s.data []).map (fun cs => String.mk cs)
  if l.getLast? = some "" then l.dropLast else l

/-- Downloader persistence (src/video_downloader.py lines 106–109): the file
is rewritten in `"w"` mode with `"\n".join(processed_ids)` — no trailing
newline. `ids` is the in-memory set (previously loaded ids plus the new
ones), in the iteration order Python's set happens to produce. -/
def downloader_write_log (ids : List String) : String :=
  String.intercalate "\n" ids

/-- Segmenter persistence (src/video_segmenter.py lines 176–178): append
`f"{video_path.stem}\n"` to the log file. -/
def segmenter_append_log (log : String) (id : String) : String :=
  log ++ id ++ "\n"

/-! ## Segmentation of a raw asset
(src/video_segmenter.py, `process_new_videos_into_segments`, per-video body)

The external `ffmpeg` calls are idealised: the trim is assumed to succeed and
to produce a file of exactly the requested duration, and each cut segment to
be produced; the quality gate's verdict on segment `i` is the parameter
`gate i`. -/

/-- A raw source video: its file stem and its probed duration in seconds. -/
structure RawVideo where
  stem : String
  duration : ℚ
deriving DecidableEq, Repr

/-- What one iteration of the per-video loop did. -/
structure ProcessOutcome where
  segmentsKept : List String
  rawDeleted : Bool
  loggedProcessed : Bool
deriving DecidableEq, Repr

/-- Parameters the per-video body reads from src/config.py. -/
structure SegmenterCfg where
  enableTrimming : Bool
  trimStart : ℚ
  trimEnd : ℚ
  segmentDuration : ℚ
deriving Repr

def segmenterCfg : SegmenterCfg :=
  { enableTrimming := ENABLE_VIDEO_TRIMMING,
    trimStart := TRIM_START_SECONDS,
    trimEnd := TRIM_END_SECONDS,
    segmentDuration := SEGMENT_DURATION_SECONDS }

/-- Segment filenames kept for a video cut into `n` pieces, gated by `gate`. -/
def keptSegments (stem : String) (n : Nat) (gate : Nat → Bool) : List String :=
  (List.range n).filterMap (fun i =>
    if gate i then some (stem ++ "_seg" ++ toString (i + 1) ++ ".mp4") else none)

/-- One iteration of the loop in `process_new_videos_into_segments`: with
trimming enabled, a video whose duration minus both trims is below one
segment duration hits `continue` — no segments, no deletion of the raw file,
no processed-log entry.  Otherwise the (possibly trimmed) input is cut into
`floor(duration / SEGMENT_DURATION_SECONDS)` segments, each kept or unlinked
by the quality gate, then the raw file is unlinked and the stem appended to
the processed log. -/
def process_one_video (cfg : SegmenterCfg) (v : RawVideo) (gate : Nat → Bool) :
    ProcessOutcome :=
  if cfg.enableTrimming then
    let trimmedDuration := v.duration - cfg.trimStart - cfg.trimEnd
    if trimmedDuration < cfg.segmentDuration then
      { segmentsKept := [], rawDeleted := false, loggedProcessed := false }
    else
      let n := (trimmedDuration / cfg.segmentDuration).floor.toNat
      { segmentsKept := keptSegments v.stem n gate,
        rawDeleted := true, loggedProcessed := true }
  else
    let n := (v.duration / cfg.segmentDuration).floor.toNat
    { segmentsKept := keptSegments v.stem n gate,
      rawDeleted := true, loggedProcessed := true }

/-! ## Quality gate (src/video_segmenter.py, `is_segment_high_quality`)

A video is modelled by whether `cv2.VideoCapture` opened it, its reported
frame count, and the result of reading each frame index: `none` when
`cap.read()` returns `ret = False`, `some g` when it returns a frame whose
grayscale plane is the pixel list `g` (the BGR→gray conversion is absorbed
into the model: frames are given directly as luminance values).  The `except`
handler of lines 79–80 is outside the model: no modelled operation raises. -/

/-- A grayscale frame: the list of pixel luminance values. -/
abbrev Frame := List Nat

structure QVideo where
  opened : Bool
  frameCount : Nat
  readFrame : Nat → Option Frame

/-- Thresholds read from src/config.py. -/
structure QualityCfg where
  enableValidation : Bool
  samples : Nat
  minBrightness : ℚ
  maxBrightness : ℚ
  minMotionScore : ℚ
deriving Repr

def qualityCfg : QualityCfg :=
  { enableValidation := ENABLE_QUALITY_VALIDATION,
    samples := VALIDATION_FRAME_SAMPLES,
    minBrightness := MIN_BRIGHTNESS,
    maxBrightness := MAX_BRIGHTNESS,
    minMotionScore := MIN_MOTION_SCORE }

/-- Embedding of `np.linspace(0, frame_count - 1, k, dtype=int)`: `k` evenly spaced
indices from `0` to `frame_count - 1`, truncated to integers. -/
def sampleIndices (frameCount k : Nat) : List Nat :=
  if k ≤ 1 then (List.range k).map (fun _ => 0)
  else (List.range k).map (fun i => i * (frameCount - 1) / (k - 1))

/-- Embedding of `gray.mean()`: the mean luminance of a frame (0 on the empty frame). -/
def frameMean (g : Frame) : ℚ :=
  (g.sum : ℚ) / (g.length : ℚ)

/-- Motion score between two consecutive sampled frames:
`cv2.absdiff`, binary threshold at 25, then
`np.count_nonzero(thresh) * 100 / thresh.size` — the percentage of pixel
positions whose absolute luminance difference exceeds 25. -/
def motionPercent (p g : Frame) : ℚ :=
  let diffs := List.zipWith (fun a b => (a : ℤ) - (b : ℤ)) p g
  ((diffs.filter (fun d => 25 < d.natAbs)).length * 100 : ℚ) / (diffs.length : ℚ)

/-- Mean of a list of rationals (`np.mean`); 0 on the empty list, which the
caller never uses (the `nan` case is branched on separately). -/
def meanQ (l : List ℚ) : ℚ := l.sum / (l.length : ℚ)

/-- The sampling loop of lines 49–64: walk the sampled indices keeping the
previous successfully read gray frame; a read with `ret = False` hits
`continue`, leaving both accumulators and `prev_gray` untouched.  Returns the
collected brightness values and motion scores. -/
def sampleLoop (v : QVideo) : List Nat → Option Frame → List ℚ × List ℚ
  | [], _ => ([], [])
  | i :: rest, prev =>
    match v.readFrame i with
    | none => sampleLoop v rest prev
    | some g =>
      let (bs, ms) := sampleLoop v rest (some g)
      match prev with
      | none => (frameMean g :: bs, ms)
      | some p => (frameMean g :: bs, motionPercent p g :: ms)

/-- Embedding of `is_segment_high_quality(segment_path)` of src/video_segmenter.py.
When every sampled read fails, `brightness_values` is empty and
`np.mean([])` is `nan`; the band check `MIN <= nan <= MAX` is false, so the
segment is rejected through the brightness branch — modelled by the explicit
empty-list case.  Reason strings carry the branch (the numeric interpolation
of the Python f-strings is dropped). -/
def is_segment_high_quality (cfg : QualityCfg) (v : QVideo) : Bool × String :=
  if ¬ cfg.enableValidation then (true, "Validation disabled")
  else if ¬ v.opened then (false, "Cannot open video")
  else if v.frameCount < cfg.samples then (false, "Too short")
  else
    let (bs, ms) := sampleLoop v (sampleIndices v.frameCount cfg.samples) none
    if bs.isEmpty then (false, "Brightness out of range (nan)")
    else if ¬ (cfg.minBrightness ≤ meanQ bs ∧ meanQ bs ≤ cfg.maxBrightness) then
      (false, "Brightness out of range")
    else if ¬ ms.isEmpty ∧ meanQ ms < cfg.minMotionScore then
      (false, "Insufficient motion")
    else (true, "OK")

/-- The sampled frames that actually read successfully, in order. -/
def goodFrames (v : QVideo) (idxs : List Nat) : List Frame :=
  idxs.filterMap v.readFrame

/-- The brightness/motion accumulators as a function of the list of
successfully read frames alone. -/
def accumulate : List Frame → Option Frame → List ℚ × List ℚ
  | [], _ => ([], [])
  | g :: rest, prev =>
    let (bs, ms) := accumulate rest (some g)
    match prev with
    | none => (frameMean g :: bs, ms)
    | some p => (frameMean g :: bs, motionPercent p g :: ms)

/-- The verdict of the gate as a function of the successfully read sampled
frames alone: the tail of `is_segment_high_quality` after the sampling loop. -/
def evalFrames (cfg : QualityCfg) (frames : List Frame) : Bool × String :=
  let (bs, ms) := accumulate frames none
  if bs.isEmpty then (false, "Brightness out of range (nan)")
  else if ¬ (cfg.minBrightness ≤ meanQ bs ∧ meanQ bs ≤ cfg.maxBrightness) then
    (false, "Brightness out of range")
  else if ¬ ms.isEmpty ∧ meanQ ms < cfg.minMotionScore then
    (false, "Insufficient motion")
  else (true, "OK")

/-! ## Supporting lemmas -/

lemma lookupAssigned_cons (e : String × String) (m : List (String × String))
    (k : String) :
    lookupAssigned (e :: m) k =
      if e.1 = k then some e.2 else lookupAssigned m k := by
  by_cases h : e.1 = k
  · simp [lookupAssigned, List.find?_cons, h]
  · simp [lookupAssigned, List.find?_cons, h]

lemma lookupAssigned_eq_some {m : List (String × String)} {k p : String}
    (h : lookupAssigned m k = some p) : (k, p) ∈ m := by
  unfold lookupAssigned at h
  cases hf : m.find? (fun e => e.1 = k) with
  | none => rw [hf] at h; simp at h
  | some e =>
    rw [hf] at h
    simp at h
    have hmem := List.mem_of_find?_eq_some hf
    have hp := List.find?_some hf
    simp at hp
    rw [← hp, ← h]
    simpa using hmem

/-! ## C2 — publish-timing decision -/

/-- C2: `decidePublishTiming` has exactly three outcomes: completion strictly
before the target keeps the original target as the scheduled time; completion
at or after the target with an overrun of at most the tolerance (inclusive,
including zero overrun) publishes now (`None`); an overrun strictly beyond
the tolerance schedules for the next slot computed from the completion
instant. -/
theorem decide_publish_timing_three_outcomes (schedule : List Slot)
    (target now toleranceMinutes : Nat) :
    (now < target →
      decide_publish_timing schedule target now toleranceMinutes = some target) ∧
    (target ≤ now → now - target ≤ toleranceMinutes * 60000000 →
      decide_publish_timing schedule target now toleranceMinutes = none) ∧
    (target ≤ now → toleranceMinutes * 60000000 < now - target →
      decide_publish_timing schedule target now toleranceMinutes =
        some (get_next_publish_time schedule now)) := by
  refine ⟨?_, ?_, ?_⟩
  · intro h
    unfold decide_publish_timing
    rw [if_neg (by omega)]
  · intro h1 h2
    unfold decide_publish_timing
    rw [if_pos h1, if_pos h2]
  · intro h1 h2
    unfold decide_publish_timing
    rw [if_pos h1, if_neg (by omega)]

/-- Witness for C2: slots `["08:00","20:00"]`, target today 08:00; completion
07:00 keeps the 08:00 target, completion 08:20 with 30-minute tolerance
publishes now, completion 09:00 reschedules to today 20:00. -/
theorem decide_publish_timing_three_outcomes_witness :
    decide_publish_timing [⟨8, 0⟩, ⟨20, 0⟩] 28800000000 25200000000 30 =
      some 28800000000 ∧
    decide_publish_timing [⟨8, 0⟩, ⟨20, 0⟩] 28800000000 30000000000 30 = none ∧
    decide_publish_timing [⟨8, 0⟩, ⟨20, 0⟩] 28800000000 32400000000 30 =
      some 72000000000 := by
  refine ⟨?_, ?_, ?_⟩
  · exact (decide_publish_timing_three_outcomes [⟨8, 0⟩, ⟨20, 0⟩]
      28800000000 25200000000 30).1 (by omega)
  · exact (decide_publish_timing_three_outcomes [⟨8, 0⟩, ⟨20, 0⟩]
      28800000000 30000000000 30).2.1 (by omega) (by omega)
  · have h := (decide_publish_timing_three_outcomes [⟨8, 0⟩, ⟨20, 0⟩]
      28800000000 32400000000 30).2.2 (by omega) (by omega)
    rw [h]
    rfl

/-! ## C9 — assignment is idempotent per story id -/

/-- C9: once `assign` has returned a segment for a story id, every later
`assign` for the same id returns the identical segment and leaves the
allocator state unchanged. -/
theorem get_segment_idempotent (st : SegState) (storyId : String)
    (k k' : Nat) (p : String) (st' : SegState)
    (h : get_segment st storyId k = (.ok p, st')) :
    get_segment st' storyId k' = (.ok p, st') := by
  unfold get_segment at h ⊢
  cases hl : lookupAssigned st.assigned storyId with
  | some q =>
    rw [hl] at h
    obtain ⟨hq, hst⟩ := Prod.mk.injEq .. ▸ h
    cases hq
    subst hst
    rw [hl]
  | none =>
    rw [hl] at h
    cases hs : select_valid_segment st.pool k with
    | error e => rw [hs] at h; simp at h
    | ok q =>
      rw [hs] at h
      obtain ⟨hq, hst⟩ := Prod.mk.injEq .. ▸ h
      cases hq
      subst hst
      rw [lookupAssigned_cons]
      simp

/-- Witness for C9: a pool with one valid segment; the first `assign` for
story `"a"` returns `"s1"`, and the theorem yields that a second call (with a
different oracle) returns `"s1"` again on the unchanged state. -/
theorem get_segment_idempotent_witness :
    get_segment ⟨[("a", "s1")], [("s1", 200000)]⟩ "a" 3 =
      (.ok "s1", ⟨[("a", "s1")], [("s1", 200000)]⟩) := by
  exact get_segment_idempotent ⟨[], [("s1", 200000)]⟩ "a" 0 3 "s1"
    ⟨[("a", "s1")], [("s1", 200000)]⟩ (by rfl)

/-! ## C10 — upload privacy status and scheduled publish time -/

/-- C10: the upload request carries `privacyStatus = "private"` together with
`status.publishAt` equal to the decided target exactly when a scheduled
publish time is supplied, and `privacyStatus = "public"` with no `publishAt`
when the scheduled time is `None` (publish-now). -/
theorem build_upload_status_private_iff_scheduled :
    (∀ t : Nat, build_upload_status (some t) =
      { privacyStatus := "private", publishAt := some t }) ∧
    build_upload_status none = { privacyStatus := "public", publishAt := none } :=
  ⟨fun _ => rfl, rfl⟩

/-! ## C4 — consumption happens exactly on confirmed publish success -/

/-- C4: the publish phase consumes the assigned segment (drops the assignment
and unlinks the segment file) and removes the job's working directory exactly
when the upload returns a confirmed video id; on a falsy upload result
(failure) the loop state — assignment, segment file, working files — is
untouched. -/
theorem publish_cleanup_consume_iff (ls : LoopState)
    (storyId storyFolder : String) (uploadResult : Option String) :
    (pyTruthy uploadResult = false →
      publish_cleanup ls storyId storyFolder uploadResult = ls) ∧
    (∀ p, pyTruthy uploadResult = true →
      lookupAssigned ls.seg.assigned storyId = some p →
      lookupAssigned
          (publish_cleanup ls storyId storyFolder uploadResult).seg.assigned
          storyId = none ∧
      (∀ f ∈ (publish_cleanup ls storyId storyFolder uploadResult).seg.pool,
        f.1 ≠ p) ∧
      storyFolder ∉
        (publish_cleanup ls storyId storyFolder uploadResult).storyFolders) := by
  constructor
  · intro h
    unfold publish_cleanup
    rw [h]
    rfl
  · intro p h hassign
    unfold publish_cleanup
    rw [h]
    simp only [if_pos]
    refine ⟨?_, ?_, ?_⟩
    · unfold consume_segment
      rw [hassign]
      unfold lookupAssigned
      have hfind : (ls.seg.assigned.filter
          (fun e => ¬ e.1 = storyId)).find? (fun e => e.1 = storyId) = none := by
        rw [List.find?_eq_none]
        intro e he
        simp only [List.mem_filter] at he
        simpa using he.2
      rw [hfind]
      rfl
    · intro f hf
      unfold consume_segment at hf
      rw [hassign] at hf
      simp only [List.mem_filter] at hf
      simpa using hf.2
    · intro hmem
      simp only [List.mem_filter] at hmem
      simpa using hmem.2

/-- Witness for C4: one story `"a"` holding `"s1.mp4"` with its working
directory `"story_a"`; a failed upload leaves the state identical, while a
successful upload with video id `"vid42"` removes the assignment, the file
and the directory. -/
theorem publish_cleanup_consume_iff_witness :
    publish_cleanup ⟨⟨[("a", "s1.mp4")], [("s1.mp4", 200000)]⟩, ["story_a"]⟩
        "a" "story_a" none =
      ⟨⟨[("a", "s1.mp4")], [("s1.mp4", 200000)]⟩, ["story_a"]⟩ ∧
    (lookupAssigned
        (publish_cleanup ⟨⟨[("a", "s1.mp4")], [("s1.mp4", 200000)]⟩, ["story_a"]⟩
          "a" "story_a" (some "vid42")).seg.assigned "a" = none ∧
      (∀ f ∈ (publish_cleanup
          ⟨⟨[("a", "s1.mp4")], [("s1.mp4", 200000)]⟩, ["story_a"]⟩
          "a" "story_a" (some "vid42")).seg.pool, f.1 ≠ "s1.mp4") ∧
      "story_a" ∉ (publish_cleanup
          ⟨⟨[("a", "s1.mp4")], [("s1.mp4", 200000)]⟩, ["story_a"]⟩
          "a" "story_a" (some "vid42")).storyFolders) := by
  constructor
  · exact (publish_cleanup_consume_iff
      ⟨⟨[("a", "s1.mp4")], [("s1.mp4", 200000)]⟩, ["story_a"]⟩
      "a" "story_a" none).1 rfl
  · exact (publish_cleanup_consume_iff
      ⟨⟨[("a", "s1.mp4")], [("s1.mp4", 200000)]⟩, ["story_a"]⟩
      "a" "story_a" (some "vid42")).2 "s1.mp4" rfl rfl

/-! ## C8 — size floor and `NoAssetsAvailable` -/

/-- Initially, `SizeValidInv` holds of the empty allocator. -/
lemma sizeValidInv_init (pool : List (String × Nat)) :
    SizeValidInv ⟨[], pool⟩ := by
  intro e he
  simp at he

/-- A fresh selection only ever returns a path backed by a pool file of at
least the minimum byte size. -/
lemma select_valid_segment_ok {pool : List (String × Nat)} {k : Nat}
    {p : String} (h : select_valid_segment pool k = .ok p) :
    ∃ f ∈ pool, f.1 = p ∧ MIN_SEGMENT_SIZE_BYTES ≤ f.2 := by
  unfold select_valid_segment at h
  cases hav : pool.filter (fun f => MIN_SEGMENT_SIZE_BYTES ≤ f.2) with
  | nil => rw [hav] at h; simp at h
  | cons x xs =>
    rw [hav] at h
    simp only [Except.ok.injEq] at h
    have hmem : ((x :: xs).get
        ⟨k % (x :: xs).length, Nat.mod_lt _ (Nat.succ_pos _)⟩) ∈
        pool.filter (fun f => MIN_SEGMENT_SIZE_BYTES ≤ f.2) := by
      rw [hav]
      exact List.get_mem _ _ _
    simp only [List.mem_filter] at hmem
    exact ⟨_, hmem.1, h, by simpa using hmem.2⟩

/-- If the pool holds no size-valid file, a fresh selection raises
`ValueError("No valid segments available.")`. -/
lemma select_valid_segment_empty {pool : List (String × Nat)} {k : Nat}
    (h : ∀ f ∈ pool, f.2 < MIN_SEGMENT_SIZE_BYTES) :
    select_valid_segment pool k = .error "No valid segments available." := by
  unfold select_valid_segment
  have hav : pool.filter (fun f => MIN_SEGMENT_SIZE_BYTES ≤ f.2) = [] := by
    rw [List.filter_eq_nil_iff]
    intro f hf
    simpa using Nat.not_le.mpr (h f hf)
  rw [hav]

/-- Assignment preserves `SizeValidInv`. -/
lemma sizeValidInv_get_segment {st : SegState} (hInv : SizeValidInv st)
    (storyId : String) (k : Nat) :
    SizeValidInv (get_segment st storyId k).2 := by
  unfold get_segment
  cases hl : lookupAssigned st.assigned storyId with
  | some p => exact hInv
  | none =>
    cases hs : select_valid_segment st.pool k with
    | error e => exact hInv
    | ok p =>
      intro e he
      simp only [List.mem_cons] at he
      rcases he with he | he
      · subst he
        obtain ⟨f, hfmem, hfp, hfsz⟩ := select_valid_segment_ok hs
        exact ⟨f, hfmem, hfp, hfsz⟩
      · exact hInv e he

/-- Consumption preserves `SizeValidInv` provided no other story
shares the consumed story's path.  (Without that proviso preservation fails:
the double-assignment defect lets two stories hold the same file, and
consuming one deletes the other's file while its assignment stays.) -/
lemma sizeValidInv_consume_segment {st : SegState} (hInv : SizeValidInv st)
    (storyId : String)
    (hdisj : ∀ e ∈ st.assigned, ∀ e' ∈ st.assigned, e.2 = e'.2 → e.1 = e'.1) :
    SizeValidInv (consume_segment st storyId) := by
  unfold consume_segment
  cases hl : lookupAssigned st.assigned storyId with
  | none => exact hInv
  | some p =>
    intro e he
    simp only [List.mem_filter] at he
    obtain ⟨f, hfmem, hfp, hfsz⟩ := hInv e he.1
    refine ⟨f, ?_, hfp, hfsz⟩
    simp only [List.mem_filter, hfmem, true_and]
    have hne : e.1 ≠ storyId := by simpa using he.2
    have hmem : (storyId, p) ∈ st.assigned := lookupAssigned_eq_some hl
    have hfne : f.1 ≠ p := by
      intro hcontra
      rw [hfp] at hcontra
      exact hne (hdisj e he.1 (storyId, p) hmem hcontra)
    simpa using hfne

/-- C8: on any allocator state whose assignments point at size-valid pool
files (true initially and preserved by assignment), `assign` never returns a
segment below the minimum byte-size floor, and when no size-valid segment
exists in the pool it fails with the `NoAssetsAvailable` error
(`ValueError("No valid segments available.")`) instead of returning one. -/
theorem get_segment_size_floor (st : SegState) (storyId : String) (k : Nat)
    (hInv : SizeValidInv st) :
    (∀ p st', get_segment st storyId k = (.ok p, st') →
      ∃ f ∈ st.pool, f.1 = p ∧ MIN_SEGMENT_SIZE_BYTES ≤ f.2) ∧
    ((∀ f ∈ st.pool, f.2 < MIN_SEGMENT_SIZE_BYTES) →
      get_segment st storyId k = (.error "No valid segments available.", st)) := by
  constructor
  · intro p st' h
    unfold get_segment at h
    cases hl : lookupAssigned st.assigned storyId with
    | some q =>
      rw [hl] at h
      obtain ⟨hq, _⟩ := Prod.mk.injEq .. ▸ h
      cases hq
      obtain ⟨f, hfmem, hfp, hfsz⟩ := hInv _ (lookupAssigned_eq_some hl)
      exact ⟨f, hfmem, hfp, hfsz⟩
    | none =>
      rw [hl] at h
      cases hs : select_valid_segment st.pool k with
      | error e => rw [hs] at h; simp at h
      | ok q =>
        rw [hs] at h
        obtain ⟨hq, _⟩ := Prod.mk.injEq .. ▸ h
        cases hq
        exact select_valid_segment_ok hs
  · intro hall
    unfold get_segment
    have hl : lookupAssigned st.assigned storyId = none := by
      cases hl : lookupAssigned st.assigned storyId with
      | none => rfl
      | some p =>
        obtain ⟨f, hfmem, _, hfsz⟩ := hInv _ (lookupAssigned_eq_some hl)
        exact absurd hfsz (Nat.not_le.mpr (hall f hfmem))
    rw [hl, select_valid_segment_empty hall]

/-- Witness for C8: a pool with one valid and one undersized file yields the
valid one; a pool with only an undersized file raises `NoAssetsAvailable`. -/
theorem get_segment_size_floor_witness :
    (∃ f ∈ [("s1", 200000), ("tiny", 5)], f.1 = "s1" ∧
      MIN_SEGMENT_SIZE_BYTES ≤ f.2) ∧
    get_segment ⟨[], [("tiny", 5)]⟩ "b" 7 =
      (.error "No valid segments available.", ⟨[], [("tiny", 5)]⟩) := by
  constructor
  · exact (get_segment_size_floor ⟨[], [("s1", 200000), ("tiny", 5)]⟩ "a" 0
      (by decide)).1 "s1" ⟨[("a", "s1")], [("s1", 200000), ("tiny", 5)]⟩ (by rfl)
  · exact (get_segment_size_floor ⟨[], [("tiny", 5)]⟩ "b" 7 (by decide)).2
      (by decide)

/-! ## C1 — exclusivity of assignment (refuted) -/

/-- C1 fails on the code: `_select_valid_segment` scans the whole segments
directory and never excludes files already assigned to another story, so
`assign` can hand the same segment to two distinct story ids even while two
unassigned size-valid segments remain.  With a pool of three valid segments,
story `"a"` receives `"s1"`; the later call for story `"b"` draws from all
three files (oracle 0) and receives `"s1"` as well, although the two
unassigned size-valid segments `"s2", "s3"` exist at that moment. -/
theorem double_assignment_while_two_unassigned :
    (get_segment ⟨[], [("s1", 200000), ("s2", 200000), ("s3", 200000)]⟩
      "a" 0).1 = .ok "s1" ∧
    (get_segment ⟨[("a", "s1")], [("s1", 200000), ("s2", 200000), ("s3", 200000)]⟩
      "b" 0).1 = .ok "s1" ∧
    (get_segment ⟨[], [("s1", 200000), ("s2", 200000), ("s3", 200000)]⟩
      "a" 0).2 =
      ⟨[("a", "s1")], [("s1", 200000), ("s2", 200000), ("s3", 200000)]⟩ ∧
    (unassignedValid
      ⟨[("a", "s1")], [("s1", 200000), ("s2", 200000), ("s3", 200000)]⟩).length
      = 2 := by
  refine ⟨rfl, rfl, rfl, rfl⟩

/-! ## C5 — too-short raw asset (corrected) -/

/-- C5 as stated is false: a raw asset whose duration minus both trims falls
below one segment duration is skipped by `continue`, which bypasses the
cleanup that unlinks the raw file — the asset produces zero segments but is
*not* deleted (and is not marked processed).  Concrete input: a 100-second
video with 30 s trims and 120 s segments under the shipped configuration. -/
theorem too_short_asset_is_not_deleted :
    process_one_video segmenterCfg ⟨"vid1", 100⟩ (fun _ => true) =
      { segmentsKept := [], rawDeleted := false, loggedProcessed := false } := by
  unfold process_one_video segmenterCfg
  norm_num [ENABLE_VIDEO_TRIMMING, TRIM_START_SECONDS, TRIM_END_SECONDS,
    SEGMENT_DURATION_SECONDS]

/-- C5 amended: with trimming enabled, a raw asset whose duration minus the
configured start and end trims is shorter than one segment duration is
rejected outright — zero segments are produced — but the raw asset file is
left on disk, undeleted and not appended to the processed log. -/
theorem too_short_asset_skipped (cfg : SegmenterCfg) (v : RawVideo)
    (gate : Nat → Bool) (hTrim : cfg.enableTrimming = true)
    (hShort : v.duration - cfg.trimStart - cfg.trimEnd < cfg.segmentDuration) :
    process_one_video cfg v gate =
      { segmentsKept := [], rawDeleted := false, loggedProcessed := false } := by
  unfold process_one_video
  rw [hTrim]
  simp [hShort]

/-- Witness for the amended C5: the shipped configuration (trimming on, 30 s
trims, 120 s segments) and a 150-second raw video. -/
theorem too_short_asset_skipped_witness :
    process_one_video segmenterCfg ⟨"vid2", 150⟩ (fun _ => false) =
      { segmentsKept := [], rawDeleted := false, loggedProcessed := false } :=
  too_short_asset_skipped segmenterCfg ⟨"vid2", 150⟩ (fun _ => false) rfl
    (by norm_num [segmenterCfg, TRIM_START_SECONDS, TRIM_END_SECONDS,
      SEGMENT_DURATION_SECONDS])

/-! ## C6 — durability of the deduplication log (refuted by the code) -/

/-- C6 is right about the intended behavior and the code breaks it: the
downloader rewrites the log with `"\n".join(processed_ids)` — `"w"` mode and
no trailing newline — so the segmenter's next append `f"{stem}\n"` merges
with the final id.  Concretely, after the downloader persists
`["aaa", "bbb"]` the id `"bbb"` is a line of the log, but after the
segmenter then appends `"ccc"` the log's lines are `["aaa", "bbbccc"]`:
`"bbb"` (and `"ccc"`) are gone, defeating the append-only deduplication
contract. -/
theorem dedup_log_loses_persisted_id :
    "bbb" ∈ pySplitlines (downloader_write_log ["aaa", "bbb"]) ∧
    "bbb" ∉ pySplitlines
      (segmenter_append_log (downloader_write_log ["aaa", "bbb"]) "ccc") ∧
    pySplitlines
      (segmenter_append_log (downloader_write_log ["aaa", "bbb"]) "ccc") =
      ["aaa", "bbbccc"] := by
  refine ⟨?_, ?_, ?_⟩ <;> decide

/-! ## C7 — frame-read failures in the quality gate (corrected) -/

/-- C7 as stated is false: a sampled read with `ret = False` hits `continue`
and is silently skipped rather than causing a hard rejection.  Concrete
input: a 5-frame video under the shipped thresholds whose sampled frame 2
fails to read while the other four frames alternate between luminance 100
and 160 — the gate *accepts* it with reason `"OK"`. -/
theorem frame_read_failure_is_not_rejected :
    is_segment_high_quality qualityCfg
      ⟨true, 5, fun i => if i = 2 then none
        else if i % 2 = 0 then some [100, 100, 100, 100]
        else some [160, 160, 160, 160]⟩ = (true, "OK") ∧
    (if (2 : Nat) = 2 then none
      else if 2 % 2 = 0 then some [100, 100, 100, 100]
      else some ([160, 160, 160, 160] : Frame)) = none ∧
    2 ∈ sampleIndices 5 5 := by
  refine ⟨?_, rfl, by decide⟩
  norm_num [is_segment_high_quality, qualityCfg, ENABLE_QUALITY_VALIDATION,
    VALIDATION_FRAME_SAMPLES, MIN_BRIGHTNESS, MAX_BRIGHTNESS, MIN_MOTION_SCORE,
    sampleIndices, List.range_succ, sampleLoop, frameMean, motionPercent, meanQ]

/-- The sampling loop ignores failed reads: it computes the same accumulators
as a direct pass over the successfully read frames. -/
lemma sampleLoop_eq_accumulate (v : QVideo) (idxs : List Nat)
    (prev : Option Frame) :
    sampleLoop v idxs prev = accumulate (goodFrames v idxs) prev := by
  induction idxs generalizing prev with
  | nil => rfl
  | cons i rest ih =>
    unfold sampleLoop goodFrames
    cases hr : v.readFrame i with
    | none =>
      show sampleLoop v rest prev = accumulate ((i :: rest).filterMap v.readFrame) prev
      rw [List.filterMap_cons_none hr]
      exact ih prev
    | some g =>
      show (let (bs, ms) := sampleLoop v rest (some g)
        match prev with
        | none => (frameMean g :: bs, ms)
        | some p => (frameMean g :: bs, motionPercent p g :: ms)) =
        accumulate ((i :: rest).filterMap v.readFrame) prev
      rw [List.filterMap_cons_some hr]
      unfold accumulate
      rw [ih (some g)]
      rfl

/-- C7 amended: a failure to read a sampled frame is skipped, not rejected —
the gate's verdict is a function of the successfully read sampled frames
alone (with motion compared across the gap) — and when *every* sampled read
fails the segment is rejected through the empty-brightness (`nan`) branch
with reason `"Brightness out of range (nan)"`, not with the underlying
error. -/
theorem quality_gate_skips_failed_reads (cfg : QualityCfg) (v : QVideo)
    (hval : cfg.enableValidation = true) (hop : v.opened = true)
    (hcnt : cfg.samples ≤ v.frameCount) :
    is_segment_high_quality cfg v =
      evalFrames cfg (goodFrames v (sampleIndices v.frameCount cfg.samples)) ∧
    (goodFrames v (sampleIndices v.frameCount cfg.samples) = [] →
      is_segment_high_quality cfg v = (false, "Brightness out of range (nan)")) := by
  have hmain : is_segment_high_quality cfg v =
      evalFrames cfg (goodFrames v (sampleIndices v.frameCount cfg.samples)) := by
    unfold is_segment_high_quality evalFrames
    rw [hval, hop]
    rw [if_neg (by simp), if_neg (by simp), if_neg (Nat.not_lt.mpr hcnt)]
    rw [sampleLoop_eq_accumulate]
  refine ⟨hmain, ?_⟩
  intro hempty
  rw [hmain, hempty]
  rfl

/-- Witness for the amended C7: the shipped thresholds and a 5-frame video
none of whose sampled frames reads successfully — the gate rejects it with
the `nan` brightness reason. -/
theorem quality_gate_skips_failed_reads_witness :
    is_segment_high_quality qualityCfg ⟨true, 5, fun _ => none⟩ =
      (false, "Brightness out of range (nan)") :=
  (quality_gate_skips_failed_reads qualityCfg ⟨true, 5, fun _ => none⟩
    rfl rfl (by decide)).2 (by decide)

/-! ## C3 — `nextSlot` returns the minimum occurrence strictly after now -/

instance : IsTotal Slot (fun a b => a.tod ≤ b.tod) :=
  ⟨fun a b => Nat.le_total a.tod b.tod⟩

instance : IsTrans Slot (fun a b => a.tod ≤ b.tod) :=
  ⟨fun _ _ _ => Nat.le_trans⟩

/-- A slot with a valid hour and minute occurs strictly inside the day. -/
lemma tod_lt_dayUs {s : Slot} (h1 : s.hour < 24) (h2 : s.minute < 60) :
    s.tod < dayUs := by
  unfold Slot.tod dayUs
  omega

/-- In a list sorted by time of day, `find?` for "strictly after the cutoff"
returns a slot whose time of day is minimal among all satisfying slots. -/
lemma find?_tod_min {l : List Slot} {base c : Nat}
    (hs : l.Sorted (fun a b => a.tod ≤ b.tod)) {a : Slot}
    (hf : l.find? (fun s => c < base + s.tod) = some a) :
    ∀ b ∈ l, c < base + b.tod → a.tod ≤ b.tod := by
  induction l with
  | nil => simp at hf
  | cons x xs ih =>
    rw [List.sorted_cons] at hs
    by_cases hx : c < base + x.tod
    · rw [List.find?_cons_of_pos _ (by simpa using hx)] at hf
      have hxa : x = a := by simpa using hf
      subst hxa
      intro b hb _
      rcases List.mem_cons.mp hb with rfl | hb
      · exact Nat.le_refl _
      · exact hs.1 b hb
    · rw [List.find?_cons_of_neg _ (by simpa using hx)] at hf
      intro b hb hcb
      rcases List.mem_cons.mp hb with rfl | hb
      · exact absurd hcb hx
      · exact ih hs.2 hf b hb hcb

/-- C3: for every non-empty slot list (in any order) and every instant,
`nextSlot(now)` is strictly after `now`, is itself an occurrence of a
configured slot (today's earliest remaining slot or, failing that, the
earliest slot tomorrow), and is the minimum slot occurrence strictly after
`now`. -/
theorem get_next_publish_time_correct (schedule : List Slot) (now : Nat)
    (hne : schedule ≠ [])
    (hvalid : ∀ s ∈ schedule, s.hour < 24 ∧ s.minute < 60) :
    now < get_next_publish_time schedule now ∧
    IsSlotOccurrence schedule (get_next_publish_time schedule now) ∧
    (∀ t, IsSlotOccurrence schedule t → now < t →
      get_next_publish_time schedule now ≤ t) := by
  have hdpos : 0 < dayUs := by unfold dayUs; omega
  have hperm : (sortSchedule schedule).Perm schedule :=
    List.perm_insertionSort (fun a b : Slot => a.tod ≤ b.tod) schedule
  have hsort : (sortSchedule schedule).Sorted (fun a b : Slot => a.tod ≤ b.tod) :=
    List.sorted_insertionSort (fun a b : Slot => a.tod ≤ b.tod) schedule
  have hmemL : ∀ s, s ∈ sortSchedule schedule ↔ s ∈ schedule := fun s => hperm.mem_iff
  have hbase_le : (now / dayUs) * dayUs ≤ now := Nat.div_mul_le_self now dayUs
  have hnow_lt : now < (now / dayUs) * dayUs + dayUs := by
    have h1 := Nat.div_add_mod now dayUs
    have h2 := Nat.mod_lt now hdpos
    have h3 : dayUs * (now / dayUs) = (now / dayUs) * dayUs := Nat.mul_comm _ _
    omega
  cases hf : (sortSchedule schedule).find? (fun s => now < replaceTod now s) with
  | some s =>
    have heq : get_next_publish_time schedule now = (now / dayUs) * dayUs + s.tod := by
      unfold get_next_publish_time
      rw [hf]
      rfl
    have hps : now < (now / dayUs) * dayUs + s.tod := by
      have := List.find?_some hf
      simpa [replaceTod] using this
    have hsmem : s ∈ schedule := (hmemL s).mp (List.mem_of_find?_eq_some hf)
    rw [heq]
    refine ⟨hps, ⟨s, hsmem, now / dayUs, rfl⟩, ?_⟩
    rintro t ⟨s', hs', d', rfl⟩ hlt
    have hs'day := tod_lt_dayUs (hvalid s' hs').1 (hvalid s' hs').2
    have hsday := tod_lt_dayUs (hvalid s hsmem).1 (hvalid s hsmem).2
    rcases Nat.lt_trichotomy d' (now / dayUs) with hd | hd | hd
    · -- a strictly earlier day lies entirely at or before `now`
      exfalso
      have hstep : d' * dayUs + dayUs ≤ (now / dayUs) * dayUs := by
        calc d' * dayUs + dayUs = (d' + 1) * dayUs := by ring
          _ ≤ (now / dayUs) * dayUs := Nat.mul_le_mul_right _ hd
      omega
    · -- same day: minimality among today's remaining slots, by sortedness
      subst hd
      have hmin := find?_tod_min hsort hf s' ((hmemL s').mpr hs')
        (by simpa [replaceTod] using hlt)
      omega
    · -- a later day: already beyond today's chosen slot
      have hstep : (now / dayUs) * dayUs + dayUs ≤ d' * dayUs := by
        calc (now / dayUs) * dayUs + dayUs = (now / dayUs + 1) * dayUs := by ring
          _ ≤ d' * dayUs := Nat.mul_le_mul_right _ hd
      omega
  | none =>
    have hLne : sortSchedule schedule ≠ [] := by
      intro h
      rw [h] at hperm
      exact hne hperm.symm.eq_nil
    cases hL : sortSchedule schedule with
    | nil => exact absurd hL hLne
    | cons s0 rest =>
      have hnone : ∀ x ∈ sortSchedule schedule, ¬ now < replaceTod now x := by
        intro x hx
        have := List.find?_eq_none.mp hf x hx
        simpa using this
      have hs0mem : s0 ∈ schedule :=
        (hmemL s0).mp (by rw [hL]; exact List.mem_cons_self s0 rest)
      have hs0day := tod_lt_dayUs (hvalid s0 hs0mem).1 (hvalid s0 hs0mem).2
      have hsortL : (s0 :: rest).Sorted (fun a b : Slot => a.tod ≤ b.tod) := by
        rw [← hL]
        exact hsort
      have hs0min : ∀ b ∈ schedule, s0.tod ≤ b.tod := by
        intro b hb
        have hbL : b ∈ s0 :: rest := by
          rw [← hL]
          exact (hmemL b).mpr hb
        rcases List.mem_cons.mp hbL with rfl | hbrest
        · exact Nat.le_refl _
        · exact (List.sorted_cons.mp hsortL).1 b hbrest
      have heq : get_next_publish_time schedule now =
          (now / dayUs + 1) * dayUs + s0.tod := by
        unfold get_next_publish_time
        rw [hf, hL]
        show (now + dayUs) / dayUs * dayUs + s0.tod = _
        rw [Nat.add_div_right now hdpos]
      rw [heq]
      have hday_eq : (now / dayUs + 1) * dayUs = (now / dayUs) * dayUs + dayUs := by
        ring
      refine ⟨by omega, ⟨s0, hs0mem, now / dayUs + 1, rfl⟩, ?_⟩
      rintro t ⟨s', hs', d', rfl⟩ hlt
      have hs'day := tod_lt_dayUs (hvalid s' hs').1 (hvalid s' hs').2
      have hs'tod := hs0min s' hs'
      rcases Nat.lt_trichotomy d' (now / dayUs) with hd | hd | hd
      · exfalso
        have hstep : d' * dayUs + dayUs ≤ (now / dayUs) * dayUs := by
          calc d' * dayUs + dayUs = (d' + 1) * dayUs := by ring
            _ ≤ (now / dayUs) * dayUs := Nat.mul_le_mul_right _ hd
        omega
      · exfalso
        subst hd
        exact hnone s' ((hmemL s').mpr hs') (by simpa [replaceTod] using hlt)
      · have hstep : (now / dayUs + 1) * dayUs ≤ d' * dayUs :=
          Nat.mul_le_mul_right _ hd
        omega

/-- Witness for C3: slots `["08:00","20:00"]` (given out of order) at
07:00 — `nextSlot` is today's 08:00 slot, strictly after now and minimal
among occurrences after now. -/
theorem get_next_publish_time_correct_witness :
    25200000000 < get_next_publish_time [⟨20, 0⟩, ⟨8, 0⟩] 25200000000 ∧
    IsSlotOccurrence [⟨20, 0⟩, ⟨8, 0⟩]
      (get_next_publish_time [⟨20, 0⟩, ⟨8, 0⟩] 25200000000) ∧
    (∀ t, IsSlotOccurrence [⟨20, 0⟩, ⟨8, 0⟩] t → 25200000000 < t →
      get_next_publish_time [⟨20, 0⟩, ⟨8, 0⟩] 25200000000 ≤ t) :=
  get_next_publish_time_correct [⟨20, 0⟩, ⟨8, 0⟩] 25200000000
    (by decide) (by decide)

end Redishort
